import Mathlib

/-!
Verification of the selection-driven aggregation pipeline of the
rescue-dogs adoption explorer (source: src/streamlit_app.py).

The Python source is a Streamlit script that reruns top to bottom on every
interaction.  We embed it shallowly:

* a pandas row becomes a `Record` whose nullable columns are `Option`
  valued (`NaN` = `none`);
* `df.dropna(subset)` becomes `List.filter` over a presence predicate
  (pandas returns a fresh frame, the session store is never written back);
* `Series.value_counts()` becomes `value_counts`: distinct values in order
  of first appearance, each paired with its occurrence count, stably
  sorted by count descending.  (pandas counts via a hash table that keeps
  first-appearance order and then sorts by count descending; for the small
  frames evaluated here the numpy sort in use is stable, which the stable
  insertion sort below reproduces.)
* `groupby([...]).size()` becomes `grouped`: one row per observed key with
  its multiplicity (pandas emits only observed groups; the categorical
  conversion on lines 153-155 happens after grouping and the key order is
  irrelevant to every property below, so it is not modelled);
* `Series.str.title()` becomes `strTitle` (ASCII, which covers the data
  domain of this dataset);
* the Streamlit rerun becomes `scriptRun`, an explicit function from the
  session state, the interaction inputs and the previous widget options to
  the new session state plus the rendered aggregates.  The selectbox on
  line 135 has no explicit key, so Streamlit resets it to index 0 whenever
  its option list changes and keeps the stored choice otherwise; this is
  `selectbox` below.
-/

/-- Tail-recursive worker for `uniqueInOrder`: keeps the first occurrence of
each value, skipping values already seen. -/
def dedupGo {α : Type} [DecidableEq α] (seen : List α) : List α → List α
  | [] => []
  | x :: t => if x ∈ seen then dedupGo seen t else x :: dedupGo (x :: seen) t

/-- The distinct values of a list in order of first appearance — the key
order produced by the pandas hash table underlying `value_counts`. -/
def uniqueInOrder {α : Type} [DecidableEq α] (xs : List α) : List α :=
  dedupGo [] xs

/-- Number of occurrences of a value in a list (the group size pandas
computes for one key). -/
def countVal {α : Type} [DecidableEq α] (xs : List α) (v : α) : Nat :=
  (xs.filter (fun x => decide (x = v))).length

/-- Comparison used to sort a counted list by count descending. -/
abbrev cntGe (p q : String × Nat) : Prop := q.2 ≤ p.2

instance : IsTotal (String × Nat) cntGe := ⟨fun p q => Nat.le_total q.2 p.2⟩

instance : IsTrans (String × Nat) cntGe :=
  ⟨fun _ _ _ h h2 => Nat.le_trans h2 h⟩

instance : DecidableRel cntGe := fun p q => Nat.decLe q.2 p.2

/-- Model of `Series.value_counts()`: pair each distinct value (in
first-appearance order) with its count, then sort stably by count
descending. -/
def value_counts (xs : List String) : List (String × Nat) :=
  List.insertionSort cntGe ((uniqueInOrder xs).map (fun v => (v, countVal xs v)))

/-- One step of `strTitle`: the flag records whether the previous character
was alphabetic. -/
def titleStep (acc : String × Bool) (c : Char) : String × Bool :=
  if c.isAlpha then
    (acc.1.push (if acc.2 then c.toLower else c.toUpper), true)
  else (acc.1.push c, false)

/-- Model of the Python `str.title()` used on lines 220-222: the first
alphabetic character of every alphabetic run is uppercased, the following
ones lowercased (ASCII, which covers this dataset). -/
def strTitle (s : String) : String :=
  (s.data.foldl titleStep ("", false)).1

/-- One row of the dataset (`data/allDogDescriptions_new.csv`).  Nullable
columns are `Option` valued; only the columns the pipeline reads are
modelled. -/
structure Record where
  dog_id : Nat
  contact_state : Option String
  breed_primary : Option String
  age : Option String
  sex : Option String
  size : Option String
  env_children : Option Bool
  env_dogs : Option Bool
  env_cats : Option Bool
deriving DecidableEq, Repr

/-- Presence predicate of the `dropna` on line 110 (breed, age, sex, size,
state). -/
def graph3Required (r : Record) : Bool :=
  r.breed_primary.isSome && r.age.isSome && r.sex.isSome && r.size.isSome &&
    r.contact_state.isSome

/-- Presence predicate of the `dropna` on lines 181-184 (breed, age, sex,
size, the three env columns, state). -/
def graph4Required (r : Record) : Bool :=
  r.breed_primary.isSome && r.age.isSome && r.sex.isSome && r.size.isSome &&
    r.env_children.isSome && r.env_dogs.isSome && r.env_cats.isSome &&
    r.contact_state.isSome

/-- The three compatibility columns are all present. -/
def envPresent (r : Record) : Bool :=
  r.env_children.isSome && r.env_dogs.isSome && r.env_cats.isSome

/-- Whether a record matches the active region selection. -/
def stateMatch (sel : Option String) (r : Record) : Bool :=
  match sel with
  | some s => r.contact_state == some s
  | none => true

/-- The pattern `df[df["contact_state"] == selected_state] if selected_state
else df` (lines 114 and 188). -/
def byState (sel : Option String) (rs : List Record) : List Record :=
  match sel with
  | some s => rs.filter (fun r => r.contact_state == some s)
  | none => rs

/-- The `breed_primary` column as a series; `value_counts` ignores `NaN`,
hence `filterMap`. -/
def breedList (rs : List Record) : List String :=
  rs.filterMap (fun r => r.breed_primary)

/-- The frame of the breed-selection section (lines 110-114): drop rows
missing required fields, then restrict to the selected state. -/
def graph3Df (store : List Record) (sel : Option String) : List Record :=
  byState sel (store.filter graph3Required)

/-- The frame of the compatibility section (lines 181-188): additionally
requires the three env columns. -/
def graph4Df (store : List Record) (sel : Option String) : List Record :=
  byState sel (store.filter graph4Required)

/-- Top-10 breed ranking of the breed-selection section (lines 117-123). -/
def top_breeds3 (store : List Record) (sel : Option String) : List String :=
  ((value_counts (breedList (graph3Df store sel))).take 10).map Prod.fst

/-- Top-10 breed ranking of the compatibility section (line 191). -/
def top_breeds4 (store : List Record) (sel : Option String) : List String :=
  ((value_counts (breedList (graph4Df store sel))).take 10).map Prod.fst

/-- The breed-restricted frame of the crosstab (line 139). -/
def breed_df3 (store : List Record) (sel : Option String) (breed : String) :
    List Record :=
  (graph3Df store sel).filter (fun r => r.breed_primary == some breed)

/-- The breed-restricted frame of the compatibility section (line 206). -/
def breed_df4 (store : List Record) (sel : Option String) (breed : String) :
    List Record :=
  (graph4Df store sel).filter (fun r => r.breed_primary == some breed)

/-- The groupby key of line 143.  Every record reaching the groupby passed
`graph3Required`, so the defaults are never exercised there. -/
def demoKey (r : Record) : String × String × String :=
  (r.sex.getD "", r.size.getD "", r.age.getD "")

/-- `breed_df.groupby(["sex","size","age"]).size()` (lines 142-146): one row
per observed key with its multiplicity.  pandas sorts the keys; the key
order is irrelevant to every property below and left unspecified. -/
def grouped (store : List Record) (sel : Option String) (breed : String) :
    List ((String × String × String) × Nat) :=
  (uniqueInOrder ((breed_df3 store sel breed).map demoKey)).map
    (fun k => (k, countVal ((breed_df3 store sel breed).map demoKey) k))

/-- Declared ordered domain of `sex` (line 149). -/
def sex_order : List String := ["Female", "Male"]

/-- Declared ordered domain of `age` (line 150). -/
def age_order : List String := ["Baby", "Young", "Adult", "Senior"]

/-- Declared ordered domain of `size` (line 151). -/
def size_order : List String := ["Small", "Medium", "Large", "Extra Large"]

/-- Model of `pd.Categorical(v, categories=order)` on one value (lines
153-155): a value outside the declared categories becomes `NaN`. -/
def toCategory (order : List String) (v : String) : Option String :=
  if v ∈ order then some v else none

/-- The standardization of lines 220-222: title-case age, sex and size;
`str.title` keeps `NaN` as `NaN`. -/
def standardize (r : Record) : Record :=
  { r with age := r.age.map strTitle, sex := r.sex.map strTitle,
           size := r.size.map strTitle }

/-- The trait filter of lines 224-228, applied after standardization. -/
def filteredG4 (store : List Record) (sel : Option String) (breed : String)
    (a s z : String) : List Record :=
  ((breed_df4 store sel breed).map standardize).filter
    (fun r => r.age == some a && r.sex == some s && r.size == some z)

/-- The dictionary map of line 234: `True` to `Yes`, `False` to `No`; a
value absent from the dictionary becomes `NaN`. -/
def mapResp : Option Bool → Option String
  | some true => some "Yes"
  | some false => some "No"
  | none => none

/-- `count_responses` (lines 233-242): map the column through the
`Yes`/`No` dictionary, count values (`value_counts` ignores `NaN`), then
reindex on exactly `["Yes", "No"]` filling absent entries with 0.  Each
output row is (response, count, trait label). -/
def count_responses (rows : List Record) (col : Record → Option Bool)
    (label : String) : List (String × Nat × String) :=
  [("Yes", (rows.filterMap (fun r => mapResp (col r))).count "Yes", label),
   ("No", (rows.filterMap (fun r => mapResp (col r))).count "No", label)]

/-- The breed used by the compatibility section (lines 194-199): the
session value if present, else the first entry of the env-complete
ranking, else none. -/
def graph4SelectedBreed (store : List Record) (sel : Option String)
    (sessionBreed : Option String) : Option String :=
  match sessionBreed with
  | some b => some b
  | none => (top_breeds4 store sel).head?

/-- Outcome of the compatibility section: the warning-and-stop of lines
202-204, the no-match info of line 231, or the concatenated tally of line
248 (Children, then Dogs, then Cats). -/
inductive CompatResult where
  | emptyStop : CompatResult
  | noMatch : CompatResult
  | table : List (String × Nat × String) → CompatResult
deriving DecidableEq, Repr

/-- The compatibility section (lines 178-248) as a function of the raw
store, the region selection, the session breed and the three trait
selections.  The Python guard `if not selected_breed` is also taken by an
empty-string breed, hence the extra test. -/
def graph4 (store : List Record) (sel : Option String)
    (sessionBreed : Option String) (a s z : String) : CompatResult :=
  match graph4SelectedBreed store sel sessionBreed with
  | none => .emptyStop
  | some breed =>
    if breed = "" then .emptyStop
    else
      if (filteredG4 store sel breed a s z).isEmpty then .noMatch
      else
        .table (count_responses (filteredG4 store sel breed a s z)
                  (fun r => r.env_children) "Children" ++
                count_responses (filteredG4 store sel breed a s z)
                  (fun r => r.env_dogs) "Dogs" ++
                count_responses (filteredG4 store sel breed a s z)
                  (fun r => r.env_cats) "Cats")

/-- The interaction inputs of one rerun: the region carried by the query
parameters (line 71), an explicit selectbox interaction if any, and the
three radio values (lines 213-217). -/
structure Inputs where
  region : Option String
  breedChoice : Option String
  age : String
  sex : String
  size : String
deriving DecidableEq, Repr

/-- The persistent session state: the loaded store (`st.session_state.df`)
and the two persisted selections (lines 76 and 136). -/
structure AppState where
  df : List Record
  selected_state : Option String
  selected_breed : Option String
deriving DecidableEq, Repr

/-- Widget-state fallback of the keyless selectbox of line 135: if the
option list is unchanged the stored choice survives, otherwise the widget
is fresh and shows index 0. -/
def selectboxDefault (options prevOptions : List String)
    (prevChoice : Option String) : String :=
  if options = prevOptions then
    match prevChoice with
    | some p => p
    | none => options.headD ""
  else options.headD ""

/-- The keyless selectbox of line 135: an explicit user pick wins when it
is among the options, else the widget-state fallback applies. -/
def selectbox (options prevOptions : List String)
    (prevChoice userChoice : Option String) : String :=
  match userChoice with
  | some c => if c ∈ options then c else selectboxDefault options prevOptions prevChoice
  | none => selectboxDefault options prevOptions prevChoice

/-- One full Streamlit rerun of the script, restricted to the pipeline
sections: update `selected_state` (line 76); recompute the breed ranking
(lines 110-123); stop with a warning when it is empty (lines 131-133),
leaving the stored breed untouched; otherwise read the selectbox, store
its value (lines 135-136) and render the crosstab (lines 139-146) and the
compatibility tally (lines 178-248), both from the session store. -/
def scriptRun (st : AppState) (inp : Inputs) (prevOptions : List String) :
    AppState × Option (List ((String × String × String) × Nat) × CompatResult) :=
  if top_breeds3 st.df inp.region = [] then
    ({ df := st.df, selected_state := inp.region,
       selected_breed := st.selected_breed }, none)
  else
    ({ df := st.df, selected_state := inp.region,
       selected_breed :=
         some (selectbox (top_breeds3 st.df inp.region) prevOptions
                 st.selected_breed inp.breedChoice) },
     some (grouped st.df inp.region
             (selectbox (top_breeds3 st.df inp.region) prevOptions
               st.selected_breed inp.breedChoice),
           graph4 st.df inp.region
             (some (selectbox (top_breeds3 st.df inp.region) prevOptions
                      st.selected_breed inp.breedChoice))
             inp.age inp.sex inp.size))

/-- Modelled from the spec: the source has no reset operation, only the
implicit rerun; the spec (section 4.2) defines `reset()` as clearing
region and breed while keeping the loaded store. -/
def sessionReset (st : AppState) : AppState :=
  { df := st.df, selected_state := none, selected_breed := none }

/-! ### Concrete stores used to settle individual claims -/

/-- A fully populated record, for building concrete stores. -/
def mkRec (i : Nat) (stt breed age sex size : String) (ec ed ecat : Option Bool) :
    Record :=
  { dog_id := i, contact_state := some stt, breed_primary := some breed,
    age := some age, sex := some sex, size := some size,
    env_children := ec, env_dogs := ed, env_cats := ecat }

/-- Store for claim C1: two records match the full selector, one of them has
`env_cats` missing. -/
def exStoreC1 : List Record :=
  [mkRec 1 "CA" "Labrador" "Adult" "Female" "Small" (some true) (some true) (some true),
   mkRec 2 "CA" "Labrador" "Adult" "Female" "Small" (some true) (some true) none]

/-- Store for claim C2: a single eligible record, so only one demographic
triple is observed. -/
def exStoreC2 : List Record :=
  [mkRec 1 "CA" "Labrador" "Adult" "Female" "Small" (some true) (some true) (some true)]

/-- Two records with distinct breeds and equal counts, listed with the
lexicographically larger breed first. -/
def exStoreC3 : List Record :=
  [mkRec 1 "CA" "Pug" "Adult" "Female" "Small" (some true) (some true) (some true),
   mkRec 2 "CA" "Beagle" "Adult" "Female" "Small" (some true) (some true) (some true)]

/-- The same two records in the opposite order. -/
def exStoreC3rev : List Record :=
  [mkRec 2 "CA" "Beagle" "Adult" "Female" "Small" (some true) (some true) (some true),
   mkRec 1 "CA" "Pug" "Adult" "Female" "Small" (some true) (some true) (some true)]

/-- Store for claims C5 and C9: the most frequent breed of the region lacks
`env_cats`, so the two rankings disagree. -/
def exStoreC5 : List Record :=
  [mkRec 1 "CA" "Pug" "Adult" "Female" "Small" (some true) (some true) none,
   mkRec 2 "CA" "Pug" "Adult" "Female" "Small" (some true) (some true) none,
   mkRec 3 "CA" "Labrador" "Adult" "Female" "Small" (some true) (some true) (some true)]

/-- Store for claim C6: two records match the full selector, one of them has
`env_children` missing. -/
def exStoreC6 : List Record :=
  [mkRec 1 "TX" "Poodle" "Young" "Male" "Medium" (some true) (some true) (some true),
   mkRec 2 "TX" "Poodle" "Young" "Male" "Medium" none (some true) (some true)]

/-- A record whose age is stored in lowercase. -/
def exRecSenior : Record :=
  mkRec 7 "CA" "Labrador" "senior" "Female" "Small" (some true) (some false) (some true)

/-- Store for claim C10. -/
def exStoreC10 : List Record := [exRecSenior]

/-- Session state for the claim C4 counterexample: a breed is selected and
the store has records only in CA. -/
def exStateC4 : AppState :=
  { df := exStoreC2, selected_state := some "CA", selected_breed := some "Labrador" }

/-- Inputs for the claim C4 counterexample: the user clicks WY, a state with
no records. -/
def exInputsC4 : Inputs :=
  { region := some "WY", breedChoice := none,
    age := "Baby", sex := "Female", size := "Small" }

/-- Session state for the claim C4 witness: no breed selected yet. -/
def exStateC4w : AppState :=
  { df := exStoreC5, selected_state := none, selected_breed := some "Husky" }

/-- Inputs for the claim C4 witness: the user clicks CA, where the stored
breed Husky does not occur. -/
def exInputsC4w : Inputs :=
  { region := some "CA", breedChoice := none,
    age := "Baby", sex := "Female", size := "Small" }

/-! ### Shared lemmas about the pandas model -/

theorem mem_dedupGo {α : Type} [DecidableEq α] (k : α) (xs : List α) :
    ∀ seen : List α, k ∈ dedupGo seen xs ↔ k ∈ xs ∧ k ∉ seen := by
  induction xs with
  | nil => intro seen; simp [dedupGo]
  | cons x t ih =>
    intro seen
    by_cases hx : x ∈ seen
    · rw [dedupGo, if_pos hx, ih seen]
      constructor
      · rintro ⟨h1, h2⟩
        exact ⟨List.mem_cons_of_mem x h1, h2⟩
      · rintro ⟨h1, h2⟩
        rcases List.mem_cons.mp h1 with rfl | h1
        · exact absurd hx h2
        · exact ⟨h1, h2⟩
    · rw [dedupGo, if_neg hx, List.mem_cons, ih (x :: seen)]
      constructor
      · rintro (rfl | ⟨h1, h2⟩)
        · exact ⟨List.mem_cons_self k t, hx⟩
        · exact ⟨List.mem_cons_of_mem x h1,
            fun hk => h2 (List.mem_cons_of_mem x hk)⟩
      · rintro ⟨h1, h2⟩
        by_cases hkx : k = x
        · exact Or.inl hkx
        · rcases List.mem_cons.mp h1 with rfl | h1
          · exact Or.inl rfl
          · refine Or.inr ⟨h1, fun hk => ?_⟩
            rcases List.mem_cons.mp hk with h | h
            · exact hkx h
            · exact h2 h

theorem mem_uniqueInOrder {α : Type} [DecidableEq α] (k : α) (xs : List α) :
    k ∈ uniqueInOrder xs ↔ k ∈ xs := by
  rw [uniqueInOrder, mem_dedupGo]
  simp

theorem nodup_dedupGo {α : Type} [DecidableEq α] (xs : List α) :
    ∀ seen : List α, (dedupGo seen xs).Nodup := by
  induction xs with
  | nil => intro seen; simp [dedupGo]
  | cons x t ih =>
    intro seen
    by_cases hx : x ∈ seen
    · rw [dedupGo, if_pos hx]; exact ih seen
    · rw [dedupGo, if_neg hx]
      refine List.nodup_cons.mpr ⟨fun hmem => ?_, ih (x :: seen)⟩
      exact ((mem_dedupGo x t (x :: seen)).mp hmem).2 (List.mem_cons_self x seen)

theorem nodup_uniqueInOrder {α : Type} [DecidableEq α] (xs : List α) :
    (uniqueInOrder xs).Nodup :=
  nodup_dedupGo xs []

theorem toFinset_uniqueInOrder {α : Type} [DecidableEq α] (xs : List α) :
    (uniqueInOrder xs).toFinset = xs.toFinset := by
  ext a
  simp [List.mem_toFinset, mem_uniqueInOrder]

theorem countVal_eq_count {α : Type} [DecidableEq α] (xs : List α) (v : α) :
    countVal xs v = xs.count v := by
  induction xs with
  | nil => rfl
  | cons x t ih =>
    by_cases hxv : x = v <;>
      simp [countVal, List.filter_cons, List.count_cons, hxv] <;>
      simpa [countVal] using ih

theorem countVal_pos_iff {α : Type} [DecidableEq α] (xs : List α) (v : α) :
    0 < countVal xs v ↔ v ∈ xs := by
  rw [countVal_eq_count]
  exact List.count_pos_iff

theorem sum_counts_uniqueInOrder {α : Type} [DecidableEq α] (xs : List α) :
    ((uniqueInOrder xs).map (fun k => countVal xs k)).sum = xs.length := by
  have he : ((uniqueInOrder xs).map (fun k => countVal xs k))
      = ((uniqueInOrder xs).map (fun k => xs.count k)) :=
    List.map_congr_left (fun k _ => countVal_eq_count xs k)
  rw [he, ← List.sum_toFinset (fun k => xs.count k) (nodup_uniqueInOrder xs),
    toFinset_uniqueInOrder]
  exact List.sum_toFinset_count_eq_length xs

theorem mem_value_counts (xs : List String) (p : String × Nat) :
    p ∈ value_counts xs ↔ p ∈ (uniqueInOrder xs).map (fun v => (v, countVal xs v)) :=
  (List.perm_insertionSort cntGe _).mem_iff

theorem sorted_value_counts (xs : List String) :
    List.Sorted cntGe (value_counts xs) :=
  List.sorted_insertionSort cntGe _

theorem graph4Required_eq (r : Record) :
    graph4Required r = (graph3Required r && envPresent r) := by
  rcases r with ⟨i, cs, bp, ag, sx, sz, ec, ed, ecat⟩
  simp only [graph4Required, graph3Required, envPresent]
  cases bp <;> cases ag <;> cases sx <;> cases sz <;> cases ec <;> cases ed <;>
    cases ecat <;> cases cs <;> rfl

theorem mem_byState (sel : Option String) (rs : List Record) (r : Record) :
    r ∈ byState sel rs ↔ r ∈ rs ∧ stateMatch sel r = true := by
  cases sel with
  | none => simp [byState, stateMatch]
  | some s => simp [byState, stateMatch, List.mem_filter]

theorem envPresent_of_mem_graph4Df (store : List Record) (sel : Option String)
    (r : Record) (h : r ∈ graph4Df store sel) : envPresent r = true := by
  rw [graph4Df, mem_byState, List.mem_filter] at h
  have h4 := h.1.2
  rw [graph4Required_eq, Bool.and_eq_true] at h4
  exact h4.2

theorem count_mapResp_yes (rows : List Record) (col : Record → Option Bool) :
    (rows.filterMap (fun r => mapResp (col r))).count "Yes"
      = (rows.filter (fun r => col r == some true)).length := by
  induction rows with
  | nil => rfl
  | cons r t ih =>
    have ih2 := ih
    simp only [mapResp] at ih2
    cases h : col r with
    | none => simp [List.filterMap_cons, List.filter_cons, h, mapResp,
        List.count_cons, ih2]
    | some b =>
      cases b <;> simp [List.filterMap_cons, List.filter_cons, h, mapResp,
        List.count_cons, ih2]

theorem count_mapResp_no (rows : List Record) (col : Record → Option Bool) :
    (rows.filterMap (fun r => mapResp (col r))).count "No"
      = (rows.filter (fun r => col r == some false)).length := by
  induction rows with
  | nil => rfl
  | cons r t ih =>
    have ih2 := ih
    simp only [mapResp] at ih2
    cases h : col r with
    | none => simp [List.filterMap_cons, List.filter_cons, h, mapResp,
        List.count_cons, ih2]
    | some b =>
      cases b <;> simp [List.filterMap_cons, List.filter_cons, h, mapResp,
        List.count_cons, ih2]

theorem count_responses_eq (rows : List Record) (col : Record → Option Bool)
    (label : String) :
    count_responses rows col label
      = [("Yes", (rows.filter (fun r => col r == some true)).length, label),
         ("No", (rows.filter (fun r => col r == some false)).length, label)] := by
  rw [count_responses, count_mapResp_yes, count_mapResp_no]

theorem length_filter_true_add_false (rows : List Record)
    (col : Record → Option Bool) (h : ∀ r ∈ rows, (col r).isSome = true) :
    (rows.filter (fun r => col r == some true)).length
      + (rows.filter (fun r => col r == some false)).length = rows.length := by
  induction rows with
  | nil => rfl
  | cons r t ih =>
    have hr := h r (List.mem_cons_self r t)
    have ht := ih (fun x hx => h x (List.mem_cons_of_mem r hx))
    cases hc : col r with
    | none => rw [hc] at hr; simp at hr
    | some b =>
      cases b <;> simp [List.filter_cons, hc, Nat.add_assoc, Nat.add_comm,
        Nat.add_left_comm] <;> omega

theorem selectboxDefault_mem (b : String) (tl prevOptions : List String)
    (prevChoice : Option String)
    (hprev : ∀ p, prevChoice = some p → p ∈ prevOptions) :
    selectboxDefault (b :: tl) prevOptions prevChoice ∈ b :: tl := by
  unfold selectboxDefault
  by_cases he : b :: tl = prevOptions
  · rw [if_pos he]
    cases hb : prevChoice with
    | some p => rw [he]; exact hprev p hb
    | none => simp
  · rw [if_neg he]
    simp

theorem selectbox_mem (b : String) (tl prevOptions : List String)
    (prevChoice userChoice : Option String)
    (hprev : ∀ p, prevChoice = some p → p ∈ prevOptions) :
    selectbox (b :: tl) prevOptions prevChoice userChoice ∈ b :: tl := by
  cases userChoice with
  | none => exact selectboxDefault_mem b tl prevOptions prevChoice hprev
  | some c =>
    rw [selectbox]
    by_cases hc : c ∈ b :: tl
    · rw [if_pos hc]; exact hc
    · rw [if_neg hc]; exact selectboxDefault_mem b tl prevOptions prevChoice hprev

theorem selectbox_reset (b : String) (tl prevOptions : List String) (p : String)
    (hp : p ∈ prevOptions) (hnp : p ∉ b :: tl) :
    selectbox (b :: tl) prevOptions (some p) none = b := by
  have hne : b :: tl ≠ prevOptions := fun he => hnp (he ▸ hp)
  unfold selectbox selectboxDefault
  rw [if_neg hne]
  rfl

theorem selectboxDefault_same (options : List String) (b : String) :
    selectboxDefault options options (some b) = b := by
  unfold selectboxDefault
  rw [if_pos rfl]

theorem selectbox_idem (options prevOptions : List String)
    (prevChoice userChoice : Option String) :
    selectbox options options
        (some (selectbox options prevOptions prevChoice userChoice)) userChoice
      = selectbox options prevOptions prevChoice userChoice := by
  cases userChoice with
  | none => exact selectboxDefault_same options _
  | some c =>
    by_cases hc : c ∈ options
    · rw [selectbox, if_pos hc, selectbox, if_pos hc]
    · rw [selectbox, if_neg hc, selectbox, if_neg hc, selectboxDefault_same]

theorem envSome_of_mem_filteredG4 (store : List Record) (sel : Option String)
    (breed : String) (a s z : String) (r : Record)
    (h : r ∈ filteredG4 store sel breed a s z) :
    r.env_children.isSome = true ∧ r.env_dogs.isSome = true ∧
      r.env_cats.isSome = true := by
  rw [filteredG4, List.mem_filter] at h
  obtain ⟨r0, hr0, rfl⟩ := List.mem_map.mp h.1
  rw [breed_df4, List.mem_filter] at hr0
  have henv := envPresent_of_mem_graph4Df store sel r0 hr0.1
  rw [envPresent, Bool.and_eq_true, Bool.and_eq_true] at henv
  exact ⟨henv.1.1, henv.1.2, henv.2⟩

/-! ### Claims -/

/-- Claim C1, counterexample.  The claim says a record whose
`compatible_with_cats` value is missing is counted as Unknown in the
tally of that trait and is never dropped from the total.  In the code
the `dropna` on lines 181-184 removes such a record before any tally is
computed, and `count_responses` reindexes on exactly `Yes` and `No`, so
on a store with two records matching the full selector — one of them
with `env_cats` missing — the Cats tally has total 1, not 2, and no
Unknown entry exists. -/
theorem c1_counterexample :
    graph4 exStoreC1 (some "CA") (some "Labrador") "Adult" "Female" "Small"
      = .table [("Yes", 1, "Children"), ("No", 0, "Children"),
                ("Yes", 1, "Dogs"), ("No", 0, "Dogs"),
                ("Yes", 1, "Cats"), ("No", 0, "Cats")] ∧
    (exStoreC1.filter (fun r => r.contact_state == some "CA" &&
        r.breed_primary == some "Labrador" && r.age == some "Adult" &&
        r.sex == some "Female" && r.size == some "Small")).length = 2 := by
  constructor <;> decide

/-- Claim C1, amended.  Every record reaching the compatibility tally has
all three compatibility fields present (records with a missing field were
dropped on lines 181-184, not mapped to Unknown), and `count_responses`
maps true to Yes and false to No and emits exactly a Yes row and a No
row — there is no Unknown category. -/
theorem c1_tristate_amended (store : List Record) (sel : Option String)
    (rows : List Record) (col : Record → Option Bool) (label : String) :
    (graph4Df store sel).all envPresent = true ∧
    count_responses rows col label
      = [("Yes", (rows.filter (fun r => col r == some true)).length, label),
         ("No", (rows.filter (fun r => col r == some false)).length, label)] := by
  constructor
  · rw [List.all_eq_true]
    intro r hr
    exact envPresent_of_mem_graph4Df store sel r hr
  · exact count_responses_eq rows col label

/-- Claim C2, counterexample.  The claim says the crosstab holds one row
for every (sex, size, age) triple of the declared domains, zero-count
rows included.  The groupby on lines 142-146 emits only observed
triples: on a store with one eligible record the crosstab has 1 row, not
2 * 4 * 4 = 32, and the absent triple (Male, Small, Adult) has no
zero-count row. -/
theorem c2_counterexample :
    (grouped exStoreC2 (some "CA") "Labrador").length = 1 ∧
    sex_order.length * size_order.length * age_order.length = 32 ∧
    (grouped exStoreC2 (some "CA") "Labrador").length ≠
      sex_order.length * size_order.length * age_order.length ∧
    (("Male", "Small", "Adult"), 0) ∉ grouped exStoreC2 (some "CA") "Labrador" := by
  refine ⟨by decide, by decide, by decide, by decide⟩

/-- Claim C2, amended.  The crosstab holds exactly one row per observed
(sex, size, age) triple; every row has a positive count, the counts sum
to the number of eligible records for the region and breed, and the row
keys are exactly the observed triples (so zero-count triples of the
declared domains are omitted, not emitted). -/
theorem c2_crosstab_amended (store : List Record) (sel : Option String)
    (breed : String) :
    (grouped store sel breed).all (fun p => decide (0 < p.2)) = true ∧
    ((grouped store sel breed).map (fun p => p.2)).sum
      = (breed_df3 store sel breed).length ∧
    ∀ k : String × String × String,
      (k ∈ (grouped store sel breed).map Prod.fst ↔
        k ∈ (breed_df3 store sel breed).map demoKey) := by
  refine ⟨?_, ?_, ?_⟩
  · rw [List.all_eq_true]
    intro p hp
    rw [grouped] at hp
    obtain ⟨k, hk, rfl⟩ := List.mem_map.mp hp
    rw [decide_eq_true_iff]
    exact (countVal_pos_iff _ _).mpr ((mem_uniqueInOrder k _).mp hk)
  · rw [grouped, List.map_map]
    have hs := sum_counts_uniqueInOrder ((breed_df3 store sel breed).map demoKey)
    simpa [Function.comp, List.length_map] using hs
  · intro k
    rw [grouped, List.map_map]
    simp [Function.comp, mem_uniqueInOrder]

/-- Claim C3, counterexample.  The claim says ties in the breed ranking are
broken by breed label ascending and the result is independent of the
original record order.  `value_counts` keeps tied values in
first-appearance order: on two records with distinct breeds and equal
counts, Pug (listed first, lexicographically after Beagle) stays first,
and reversing the record order reverses the ranking. -/
theorem c3_counterexample :
    value_counts (breedList (graph3Df exStoreC3 (some "CA")))
      = [("Pug", 1), ("Beagle", 1)] ∧
    top_breeds3 exStoreC3 (some "CA") = ["Pug", "Beagle"] ∧
    top_breeds3 exStoreC3rev (some "CA") = ["Beagle", "Pug"] ∧
    top_breeds3 exStoreC3 (some "CA") ≠ top_breeds3 exStoreC3rev (some "CA") := by
  refine ⟨by decide, by decide, by decide, by decide⟩

/-- Claim C3, amended.  The ranking counts breed occurrences within the
active region subset, is sorted by count descending (ties kept in
first-appearance order, so the result depends on the record order), and is
truncated to at most 10 entries; being a pure function it is deterministic
on identical input, including order. -/
theorem c3_ranking_amended (store : List Record) (sel : Option String) :
    List.Sorted cntGe (value_counts (breedList (graph3Df store sel))) ∧
    List.Sorted cntGe ((value_counts (breedList (graph3Df store sel))).take 10) ∧
    (top_breeds3 store sel).length ≤ 10 ∧
    (value_counts (breedList (graph3Df store sel))).all (fun p =>
      p.2 == countVal (breedList (graph3Df store sel)) p.1 &&
        (breedList (graph3Df store sel)).elem p.1) = true := by
  refine ⟨sorted_value_counts _, ?_, ?_, ?_⟩
  · exact List.Pairwise.sublist (List.take_sublist 10 _) (sorted_value_counts _)
  · rw [top_breeds3, List.length_map, List.length_take]
    exact min_le_left 10 _
  · rw [List.all_eq_true]
    intro p hp
    rw [mem_value_counts] at hp
    obtain ⟨v, hv, rfl⟩ := List.mem_map.mp hp
    simp [List.elem_eq_mem, (mem_uniqueInOrder v _).mp hv]

/-- Claim C4, counterexample.  The claim says that after `setRegion` the
selected breed is never left invalid: reset to the first entry of the new
ranking, or unset when the ranking is empty.  When the new ranking is
empty the script stops on lines 131-133 before reaching the selectbox, so
the stored breed survives: selecting WY on a store with records only in
CA leaves `selected_breed` at Labrador — a breed not in the (empty)
current ranking — instead of unsetting it. -/
theorem c4_counterexample :
    top_breeds3 exStateC4.df exInputsC4.region = [] ∧
    (scriptRun exStateC4 exInputsC4 ["Labrador"]).1.selected_breed
      = some "Labrador" ∧
    (scriptRun exStateC4 exInputsC4 ["Labrador"]).1.selected_breed ≠ none := by
  refine ⟨by decide, by decide, by decide⟩

/-- Claim C4, amended.  After a rerun with a non-empty ranking the stored
breed is always a member of the ranking, and a previously selected breed
that is absent from the new ranking is replaced by the first entry of the
ranking (when no explicit selectbox interaction overrides it); when the
ranking is empty the script stops and the stored breed keeps its previous
value instead of being unset. -/
theorem c4_invariant_amended (st : AppState) (inp : Inputs)
    (prevOptions : List String)
    (hprev : ∀ p, st.selected_breed = some p → p ∈ prevOptions) :
    (top_breeds3 st.df inp.region = [] →
      (scriptRun st inp prevOptions).1.selected_breed = st.selected_breed) ∧
    (∀ b tl, top_breeds3 st.df inp.region = b :: tl →
      (∃ c, (scriptRun st inp prevOptions).1.selected_breed = some c ∧
        c ∈ top_breeds3 st.df inp.region) ∧
      (inp.breedChoice = none →
        ∀ p, st.selected_breed = some p → p ∉ top_breeds3 st.df inp.region →
          (scriptRun st inp prevOptions).1.selected_breed = some b)) := by
  constructor
  · intro he
    rw [scriptRun, if_pos he]
  · intro b tl htop
    have hne : top_breeds3 st.df inp.region ≠ [] := by
      rw [htop]; exact List.cons_ne_nil b tl
    constructor
    · refine ⟨selectbox (top_breeds3 st.df inp.region) prevOptions
        st.selected_breed inp.breedChoice, ?_, ?_⟩
      · rw [scriptRun, if_neg hne]
      · rw [htop]
        exact selectbox_mem b tl prevOptions st.selected_breed inp.breedChoice hprev
    · intro hu p hp hnp
      rw [scriptRun, if_neg hne]
      have : selectbox (top_breeds3 st.df inp.region) prevOptions
          st.selected_breed inp.breedChoice = b := by
        rw [hu, hp, htop]
        exact selectbox_reset b tl prevOptions p (hprev p hp) (htop ▸ hnp)
      rw [this]

/-- Claim C4, witness for the amended invariant: on a store whose CA
ranking is [Pug, Labrador], a rerun selecting CA while the stored breed is
Husky (absent from the ranking) resets the stored breed to Pug. -/
theorem c4_invariant_witness :
    (scriptRun exStateC4w exInputsC4w ["Husky"]).1.selected_breed = some "Pug" :=
  ((c4_invariant_amended exStateC4w exInputsC4w ["Husky"]
      (fun p hp => by
        have h2 := Option.some.inj hp
        rw [← h2]
        decide)).2 "Pug" ["Labrador"] (by decide)).2 rfl "Husky" rfl (by decide)

/-- Claim C5, counterexample.  The claim says the fallback breed of the
compatibility view is the rank-1 breed of BreedRanking(region).  The code
computes the fallback on line 197 from the ranking of records that also
have all three compatibility fields (line 191 after the dropna of lines
181-184): on a store where the most frequent CA breed (Pug) lacks
`env_cats`, the fallback is Labrador while BreedRanking(CA) ranks Pug
first. -/
theorem c5_counterexample :
    graph4SelectedBreed exStoreC5 (some "CA") none = some "Labrador" ∧
    (top_breeds3 exStoreC5 (some "CA")).head? = some "Pug" ∧
    graph4SelectedBreed exStoreC5 (some "CA") none ≠
      (top_breeds3 exStoreC5 (some "CA")).head? := by
  refine ⟨by decide, by decide, by decide⟩

/-- Claim C5, amended.  When no breed is in the session, the compatibility
section deterministically falls back to the first entry of the
env-complete ranking `top_breeds4` (not of BreedRanking(region)); when
that ranking is empty it stops with the explicit warning marker rather
than rendering an empty table. -/
theorem c5_fallback_amended (store : List Record) (sel : Option String)
    (a s z : String) :
    graph4SelectedBreed store sel none = (top_breeds4 store sel).head? ∧
    (top_breeds4 store sel = [] →
      graph4 store sel none a s z = CompatResult.emptyStop) := by
  constructor
  · rfl
  · intro he
    rw [graph4]
    rw [show graph4SelectedBreed store sel none = none by
      rw [graph4SelectedBreed]; rw [he]; rfl]

/-- Claim C5, witness: on a store with records only in CA, requesting the
compatibility view for WY with no session breed yields the stop marker. -/
theorem c5_fallback_witness :
    graph4 exStoreC2 (some "WY") none "Adult" "Female" "Small"
      = CompatResult.emptyStop :=
  (c5_fallback_amended exStoreC2 (some "WY") "Adult" "Female" "Small").2 (by decide)

/-- Claim C6, counterexample.  The claim says Yes + No + Unknown sums to
the number of records matching the full selector and Unknown counts the
matching records with a missing value.  On a store with two records
matching the full selector, one missing `env_children`, the Children
tally sums to 1 (the record was dropped on lines 181-184 and no Unknown
category exists), not 2. -/
theorem c6_counterexample :
    graph4 exStoreC6 (some "TX") (some "Poodle") "Young" "Male" "Medium"
      = .table [("Yes", 1, "Children"), ("No", 0, "Children"),
                ("Yes", 1, "Dogs"), ("No", 0, "Dogs"),
                ("Yes", 1, "Cats"), ("No", 0, "Cats")] ∧
    ((count_responses (filteredG4 exStoreC6 (some "TX") "Poodle" "Young" "Male"
        "Medium") (fun r => r.env_children) "Children").map
          (fun t => t.2.1)).sum = 1 ∧
    (exStoreC6.filter (fun r => r.contact_state == some "TX" &&
        r.breed_primary == some "Poodle" && r.age == some "Young" &&
        r.sex == some "Male" && r.size == some "Medium")).length = 2 ∧
    (1 : Nat) ≠ 2 := by
  refine ⟨by decide, by decide, by decide, by decide⟩

/-- Claim C6, amended.  For each trait, the Yes and No counts of the tally
sum to the number of records that match the full selector among the
env-complete records (the input of the compatibility section); records
with a missing compatibility value were dropped beforehand and there is
no Unknown count. -/
theorem c6_total_amended (store : List Record) (sel : Option String)
    (breed : String) (a s z : String) :
    ((count_responses (filteredG4 store sel breed a s z)
        (fun r => r.env_children) "Children").map (fun t => t.2.1)).sum
      = (filteredG4 store sel breed a s z).length ∧
    ((count_responses (filteredG4 store sel breed a s z)
        (fun r => r.env_dogs) "Dogs").map (fun t => t.2.1)).sum
      = (filteredG4 store sel breed a s z).length ∧
    ((count_responses (filteredG4 store sel breed a s z)
        (fun r => r.env_cats) "Cats").map (fun t => t.2.1)).sum
      = (filteredG4 store sel breed a s z).length := by
  refine ⟨?_, ?_, ?_⟩
  · rw [count_responses_eq]
    simp only [List.map_cons, List.map_nil, List.sum_cons, List.sum_nil,
      Nat.add_zero]
    exact length_filter_true_add_false _ _
      (fun r hr => (envSome_of_mem_filteredG4 store sel breed a s z r hr).1)
  · rw [count_responses_eq]
    simp only [List.map_cons, List.map_nil, List.sum_cons, List.sum_nil,
      Nat.add_zero]
    exact length_filter_true_add_false _ _
      (fun r hr => (envSome_of_mem_filteredG4 store sel breed a s z r hr).2.1)
  · rw [count_responses_eq]
    simp only [List.map_cons, List.map_nil, List.sum_cons, List.sum_nil,
      Nat.add_zero]
    exact length_filter_true_add_false _ _
      (fun r hr => (envSome_of_mem_filteredG4 store sel breed a s z r hr).2.2)

/-- Claim C7, confirmed.  Dropping records that miss a required field is
local to each aggregate: a rerun never changes the session store
(`dropna` returns a fresh frame and `st.session_state.df` is only
assigned at load time, line 12), and each aggregate draws its input from
the original store — membership in the crosstab input is characterized
over the store itself, requiring only the fields that aggregate depends
on, and likewise for the compatibility input. -/
theorem c7_frame (st : AppState) (inp : Inputs) (prevOptions : List String)
    (store : List Record) (sel : Option String) (breed : String) (r : Record) :
    (scriptRun st inp prevOptions).1.df = st.df ∧
    (sessionReset st).df = st.df ∧
    (r ∈ breed_df3 store sel breed ↔
      r ∈ store ∧ graph3Required r = true ∧ stateMatch sel r = true ∧
        (r.breed_primary == some breed) = true) ∧
    (r ∈ graph4Df store sel ↔
      r ∈ store ∧ graph4Required r = true ∧ stateMatch sel r = true) := by
  refine ⟨?_, rfl, ?_, ?_⟩
  · by_cases h : top_breeds3 st.df inp.region = []
    · rw [scriptRun, if_pos h]
    · rw [scriptRun, if_neg h]
  · rw [breed_df3, List.mem_filter, graph3Df, mem_byState, List.mem_filter]
    tauto
  · rw [graph4Df, mem_byState, List.mem_filter]
    tauto

/-- Claim C8, confirmed.  Replaying a rerun with the same inputs (region
from the query parameters, selectbox interaction, radio values) against
the state it produced — the previous widget options now being the
ranking rendered by the first run — returns the same state and the same
aggregates, and the spec-modelled reset is idempotent as well. -/
theorem c8_idempotent (st : AppState) (inp : Inputs) (prevOptions : List String) :
    scriptRun (scriptRun st inp prevOptions).1 inp (top_breeds3 st.df inp.region)
      = scriptRun st inp prevOptions ∧
    sessionReset (sessionReset st) = sessionReset st := by
  refine ⟨?_, rfl⟩
  by_cases h : top_breeds3 st.df inp.region = []
  · simp [scriptRun, h]
  · simp [scriptRun, h, selectbox_idem]

/-- Claim C9, confirmed.  The compatibility section requires the three
compatibility columns in addition to the breed-selection fields, so its
frame is the breed-selection frame further filtered on `envPresent`, and
on a store where the most frequent regional breed lacks a compatibility
value the two top-10 rankings differ. -/
theorem c9_two_rankings :
    (∀ r : Record, graph4Required r = (graph3Required r && envPresent r)) ∧
    (∀ (store : List Record) (sel : Option String),
      graph4Df store sel = (graph3Df store sel).filter envPresent) ∧
    top_breeds4 exStoreC5 (some "CA") ≠ top_breeds3 exStoreC5 (some "CA") := by
  refine ⟨graph4Required_eq, ?_, by decide⟩
  intro store sel
  rw [graph4Df, graph3Df]
  cases sel with
  | none =>
    rw [byState, byState, List.filter_filter]
    exact List.filter_congr
      (fun a _ => by rw [graph4Required_eq]; exact Bool.and_comm _ _)
  | some s =>
    rw [byState, byState, List.filter_filter, List.filter_filter,
      List.filter_filter]
    exact List.filter_congr (fun a _ => by
      rw [graph4Required_eq]
      simp [Bool.and_comm, Bool.and_left_comm, Bool.and_assoc])

/-- Claim C10, confirmed.  The compatibility section title-cases age, sex
and size (lines 220-222) before comparing them with the selected trait
values, so any record of its frame whose title-cased fields match the
selectors passes the filter; in particular a stored age of senior matches
the Senior selector.  The crosstab performs no such normalization: the
same record appears under the raw key senior, which lies outside the
declared ordered categories and becomes `NaN` under the categorical
conversion. -/
theorem c10_case_normalization :
    (∀ (store : List Record) (sel : Option String) (breed a s z : String)
        (r : Record), r ∈ breed_df4 store sel breed →
      r.age.map strTitle = some a → r.sex.map strTitle = some s →
      r.size.map strTitle = some z →
      standardize r ∈ filteredG4 store sel breed a s z) ∧
    strTitle "senior" = "Senior" ∧
    filteredG4 exStoreC10 (some "CA") "Labrador" "Senior" "Female" "Small"
      = [standardize exRecSenior] ∧
    grouped exStoreC10 (some "CA") "Labrador"
      = [(("Female", "Small", "senior"), 1)] ∧
    toCategory age_order "senior" = none ∧
    "senior" ∉ age_order := by
  refine ⟨?_, by decide, by decide, by decide, by decide, by decide⟩
  intro store sel breed a s z r hmem ha hs hz
  rw [filteredG4, List.mem_filter]
  refine ⟨List.mem_map_of_mem standardize hmem, ?_⟩
  simp [standardize, ha, hs, hz]

/-- Claim C10, witness: the record stored with age senior is a member of
the compatibility filter for the Senior selector. -/
theorem c10_case_witness :
    standardize exRecSenior ∈
      filteredG4 exStoreC10 (some "CA") "Labrador" "Senior" "Female" "Small" :=
  c10_case_normalization.1 exStoreC10 (some "CA") "Labrador" "Senior" "Female"
    "Small" exRecSenior (by decide) (by decide) (by decide) (by decide)
